import Mathlib

/-!
# Verification of the marwash bookmark-washing pipeline

Shallow embedding of the core of the `marwash` repository:

* `src/pinger.go` — the HTTP liveness prober (`HTTPinger.Ping`, `ping`,
  `check`, `terminal`, `errOrStatusRetryable`, the `dead` / `retryable`
  status-code sets);
* `src/walker.go` — the Netscape bookmark-file walker
  (`NetscapeWalker.walk`, `genBookmark`, `Next`);
* `src/washer.go` — the pipeline coordinator (`Washer.wash`, `Next`,
  `NewWasher`) and the run controller `StartWashTillDone`;
* `src/main.go` — the CLI guard on the concurrency quota.

Sequential Go code is translated function by function.  The concurrent
pieces (channels and goroutines in walker/washer) are modelled by the
sequences of values that travel through each channel: a closed Go channel
keeps delivering its zero value, which for both `Next` methods means
`(nil, io.EOF)`, so the n-th call of `Next` is `List.getD n` with an EOF
default.
-/

namespace Marwash

/-! ## Pinger data model (src/pinger.go) -/

/-- `PingStatus` from src/pinger.go: `Unknown` is the zero value. -/
inductive PingStatus where
  | Unknown
  | Alive
  | Dead
  deriving DecidableEq, Repr

/-- `pingStatuses` from src/pinger.go. -/
def pingStatuses : List String := ["unknown", "alive", "dead"]

def PingStatus.toNat : PingStatus → Nat
  | .Unknown => 0
  | .Alive => 1
  | .Dead => 2

/-- `PingStatus.String()`: indexes into `pingStatuses`. -/
def PingStatus.render (s : PingStatus) : String :=
  pingStatuses.getD s.toNat ""

/-- `alive` from src/pinger.go: `code < 300 && code >= 200`. -/
def alive (code : Nat) : Bool := code < 300 && 200 ≤ code

/-- The `dead` status-code set from src/pinger.go (Conflict, Gone,
RequestEntityTooLarge, RequestURITooLong, UnprocessableEntity,
FailedDependency, NotImplemented). -/
def dead : List Nat := [409, 410, 413, 414, 422, 424, 501]

/-- The `retryable` status-code set from src/pinger.go (MisdirectedRequest,
TooManyRequests, InternalServerError, BadGateway, ServiceUnavailable,
GatewayTimeout, InsufficientStorage, 599). -/
def retryable : List Nat := [421, 429, 500, 502, 503, 504, 507, 599]

/-- `http.StatusText` from the Go standard library, for the codes this
development mentions.  Codes outside the table render as `""`, as in Go. -/
def statusText (code : Nat) : String :=
  if code = 405 then "Method Not Allowed"
  else if code = 409 then "Conflict"
  else if code = 410 then "Gone"
  else if code = 413 then "Request Entity Too Large"
  else if code = 414 then "Request URI Too Long"
  else if code = 422 then "Unprocessable Entity"
  else if code = 424 then "Failed Dependency"
  else if code = 501 then "Not Implemented"
  else ""

/-- The error values `ping` can produce:
* `statusNotAlive code` — the error type of src/pinger.go wrapping a
  non-2xx response status;
* `urlErr temporary timeout` — a transport failure (`*url.Error`),
  abstracted to its `Temporary()` / `Timeout()` answers;
* `badRequest` — the error returned by `http.NewRequest` when the URL is
  malformed. -/
inductive PingErr where
  | statusNotAlive (code : Nat)
  | urlErr (temporary timeout : Bool)
  | badRequest
  deriving DecidableEq, Repr

/-- `statusNotAlive.Error()` is `http.StatusText`; the text of a transport
or request-construction error comes from the wrapped error and is not
observed by any claim, so it is modelled by a fixed description. -/
def pingErrText : PingErr → String
  | .statusNotAlive code => statusText code
  | .urlErr _ _ => "transport error"
  | .badRequest => "request construction error"

/-- `errOrStatusRetryable` from src/pinger.go: a type switch on the error.
A nil error, or an error of any other kind, falls to the default case. -/
def errOrStatusRetryable : Option PingErr → Bool
  | some (.urlErr temporary timeout) => temporary || timeout
  | some (.statusNotAlive code) => retryable.contains code
  | _ => false

/-- `terminal` from src/pinger.go: reachability already known, else the
405 escape hatch, else non-retryability decides. -/
def terminal (status : PingStatus) (err : Option PingErr) : Bool :=
  if status = .Alive ∨ status = .Dead then true
  else if err = some (.statusNotAlive 405) then false
  else !errOrStatusRetryable err

/-- `check` from src/pinger.go. -/
def check (code : Nat) : PingStatus :=
  if dead.contains code then .Dead
  else if alive code then .Alive
  else .Unknown

/-- One `Doer.Do` outcome: a response with a status code, or a transport
failure with its `Temporary()` / `Timeout()` classification.  A `Doer` is
modelled as the sequence of outcomes of its successive `Do` calls
(`Nat → DoOutcome`, indexed by call number), exactly how the unit tests
mock it. -/
inductive DoOutcome where
  | resp (code : Nat)
  | fail (temporary timeout : Bool)
  deriving DecidableEq, Repr

/-- The error produced by one iteration of the retry closure in `ping`:
`nil` for an alive response, `statusNotAlive` otherwise, the transport
error as is. -/
def attemptErr : DoOutcome → Option PingErr
  | .resp code => if alive code then none else some (.statusNotAlive code)
  | .fail temporary timeout => some (.urlErr temporary timeout)

/-- What the last executed attempt left behind: the response the `resp`
variable points at (plus the closure's error), or a transport failure. -/
inductive RetryOutcome where
  | resp (code : Nat) (err : Option PingErr)
  | transport (temporary timeout : Bool)
  deriving DecidableEq, Repr

/-- `retry.Attempts(3)` in src/pinger.go. -/
def pingAttempts : Nat := 3

/-- `retry.Delay(100*time.Millisecond)` in src/pinger.go. -/
def pingDelayBaseMs : Nat := 100

/-- `retry.DelayType` configuration values. -/
inductive DelayKind where
  | backOff
  | fixed
  deriving DecidableEq, Repr

/-- `retry.DelayType(retry.BackOffDelay)` in src/pinger.go: exponential
backoff. -/
def pingDelayKind : DelayKind := .backOff

/-- What `retry.Do` leaves behind when it stops at a given attempt: the
response with the closure's error, or the transport failure. -/
def stopOutcome : DoOutcome → RetryOutcome
  | .resp code => .resp code (if alive code then none else some (.statusNotAlive code))
  | .fail temporary timeout => .transport temporary timeout

/-- `retry.Do` in `ping`: run the closure; stop on nil error, retry while
`RetryIf(errOrStatusRetryable)` holds and attempts remain, otherwise stop
with the last error (`LastErrorOnly(true)`).  `i` is the index of the next
`Do` call; the returned `Nat` is the index after the loop, so the number
of requests issued is the difference. -/
def retryDo (doer : Nat → DoOutcome) (i fuel : Nat) : RetryOutcome × Nat :=
  match fuel with
  | 0 => (.transport false false, i)
  | fuel' + 1 =>
    if attemptErr (doer i) ≠ none ∧ fuel' ≠ 0 ∧ errOrStatusRetryable (attemptErr (doer i)) then
      retryDo doer (i + 1) fuel'
    else (stopOutcome (doer i), i + 1)

/-- `HTTPinger.ping` from src/pinger.go, after request construction
succeeded.  A transport error that survives the retry loop returns
`(Unknown, err)`; otherwise the status is `check` of the last response's
code, with the `statusNotAlive` error (if any) passed through.  `method`
is the HTTP method of the strategy; the `Doer` model answers by call
index, so the method does not influence the outcome sequence. -/
def ping (doer : Nat → DoOutcome) (method : String) (i : Nat) :
    PingStatus × Option PingErr × Nat :=
  match retryDo doer i pingAttempts with
  | (.resp code err, j) => (check code, err, j)
  | (.transport temporary timeout, j) => (.Unknown, some (.urlErr temporary timeout), j)

/-- One entry of `pingFns`: `http.NewRequest` failure short-circuits to
`(Dead, err)` without any `Do` call; `urlValid` abstracts whether request
construction succeeds for the probed URL (identical for both strategies,
as both build the request from the same URL). -/
def pingFn (urlValid : Bool) (doer : Nat → DoOutcome) (method : String) (i : Nat) :
    PingStatus × Option PingErr × Nat :=
  if urlValid then ping doer method i else (.Dead, some .badRequest, i)

/-- `HTTPinger.Ping` from src/pinger.go: try the HEAD strategy, return if
`terminal`, otherwise return whatever the GET strategy yields.  The third
component is the total number of `Do` calls issued. -/
def Ping (urlValid : Bool) (doer : Nat → DoOutcome) :
    PingStatus × Option PingErr × Nat :=
  let r1 := pingFn urlValid doer "HEAD" 0
  if terminal r1.1 r1.2.1 then r1
  else pingFn urlValid doer "GET" r1.2.2

/-! ## Walker data model (src/walker.go) -/

/-- `Bookmark` from src/walker.go.  `AddDate` is `none` for Go's zero
`time.Time` (no `add_date` attribute seen) and `some sec` for
`time.Unix(sec, 0)`. -/
structure Bookmark where
  URL : String
  Title : String
  AddDate : Option Int
  Status : PingStatus
  deriving DecidableEq, Repr

/-- `anchorTag` from src/walker.go. -/
def anchorTag : String := "a"

/-- One token from `html.Tokenizer`, restricted to the shapes `walk`
distinguishes; `other` stands for the token types its switch ignores
(self-closing tags, comments, doctype).  The final `ErrorToken` is not in
the list: it is the end of the stream (see `walk`). -/
inductive Token where
  | startTag (name : String) (attrs : List (String × String))
  | endTag (name : String)
  | text (data : String)
  | other
  deriving DecidableEq, Repr

/-- The errors a walk can surface: `eof` is `io.EOF` (normal exhaustion),
`parseIntError val` is the `strconv.ParseInt` failure on an `add_date`
value, `readError` a tokenizer error other than end of input. -/
inductive WalkError where
  | eof
  | parseIntError (val : String)
  | readError (msg : String)
  deriving DecidableEq, Repr

/-- `strconv.ParseInt(s, 10, 64)`: optional sign, at least one decimal
digit, nothing else, and the value must fit in a signed 64-bit integer
(`none` covers both syntax and range errors, which `genBookmark` treats
alike). -/
def parseInt64 (s : String) : Option Int :=
  let cs := s.toList
  let signed : Bool × List Char :=
    match cs with
    | '-' :: rest => (true, rest)
    | '+' :: rest => (false, rest)
    | rest => (false, rest)
  let ds := signed.2
  if ds = [] ∨ ¬ ds.all Char.isDigit then none
  else
    let n : Nat := ds.foldl (fun acc c => acc * 10 + (c.toNat - 48)) 0
    let v : Int := if signed.1 then -(n : Int) else (n : Int)
    if v < -(2 ^ 63) ∨ 2 ^ 63 - 1 < v then none else some v

/-- The attribute loop of `genBookmark`: `href` overwrites the URL,
`add_date` is parsed (a failure returns immediately), other attributes are
ignored; the remaining `Bookmark` fields keep their zero values. -/
def genBookmarkGo : List (String × String) → String → Option Int →
    Except WalkError Bookmark
  | [], url, addDate =>
    .ok { URL := url, Title := "", AddDate := addDate, Status := .Unknown }
  | (key, val) :: rest, url, addDate =>
    if key = "href" then genBookmarkGo rest val addDate
    else if key = "add_date" then
      match parseInt64 val with
      | none => .error (.parseIntError val)
      | some sec => genBookmarkGo rest url (some sec)
    else genBookmarkGo rest url addDate

/-- `genBookmark` from src/walker.go. -/
def genBookmark (attrs : List (String × String)) : Except WalkError Bookmark :=
  genBookmarkGo attrs "" none

/-- The mutable state of the `walk` loop: the `anchor` flag and the
pending bookmark pointer (`nil` modelled as `none`). -/
structure WalkState where
  anchor : Bool
  bmk : Option Bookmark
  deriving DecidableEq, Repr

/-- One value sent over the walker's channel: `walkResult` from
src/walker.go with exactly one of `B` / `E` set, as `walk` sends them. -/
inductive WalkResult where
  | ok (b : Bookmark)
  | fail (e : WalkError)
  deriving DecidableEq, Repr

/-- One iteration of the token switch in `walk` (src/walker.go):
the emitted results and the successor state, `none` when the loop
returns (a `genBookmark` failure stops the walk). -/
def walkStep (st : WalkState) : Token → List WalkResult × Option WalkState
  | .startTag name attrs =>
    if name ≠ anchorTag ∨ attrs = [] then ([], some st)
    else
      match genBookmark attrs with
      | .error e => ([.fail e], none)
      | .ok b => ([], some { anchor := true, bmk := some b })
  | .endTag name =>
    match st.bmk with
    | none => ([], some st)
    | some b =>
      if name ≠ anchorTag then ([], some st)
      else ([.ok b], some { anchor := false, bmk := none })
  | .text data =>
    match st.bmk with
    | some b =>
      if st.anchor then ([], some { st with bmk := some { b with Title := data } })
      else ([], some st)
    | none => ([], some st)
  | .other => ([], some st)

/-- The token loop of `walk` over a list of tokens, threading the state;
stops early when a step stops. -/
def walkTokens : List Token → WalkState → List WalkResult × Option WalkState
  | [], st => ([], some st)
  | t :: rest, st =>
    match walkStep st t with
    | (rs, none) => (rs, none)
    | (rs, some st') =>
      let next := walkTokens rest st'
      (rs ++ next.1, next.2)

/-- `anchor := false`, `var bmk *Bookmark` at the top of `walk`. -/
def walkInit : WalkState := { anchor := false, bmk := none }

/-- `NetscapeWalker.walk` from src/walker.go, as the full sequence of
results sent over `wchan` before it closes.  A document is a token list
followed by the terminating `ErrorToken`, whose `z.Err()` is `endErr`
(`io.EOF` at a normal end of input, a read error otherwise); when the
token loop stopped on a `genBookmark` failure the `ErrorToken` is never
reached. -/
def walk (toks : List Token) (endErr : WalkError) : List WalkResult :=
  match walkTokens toks walkInit with
  | (rs, some _) => rs ++ [.fail endErr]
  | (rs, none) => rs

/-- The n-th call of `NetscapeWalker.Next` (src/walker.go): the n-th value
received from `wchan`; once the channel is closed every receive reports
`!ok` and `Next` returns `(nil, io.EOF)`, hence the `fail eof` default. -/
def walkerNext (results : List WalkResult) (n : Nat) : WalkResult :=
  results.getD n (.fail .eof)

/-! ## Washer data model (src/washer.go, src/main.go)

`Washer.wash` runs one puller goroutine (repeatedly calling
`walker.Next()` until it returns an error — `io.EOF` included — into
`wkerr`) and one goroutine per pulled bookmark; each of the latter pings
the bookmark's URL and delivers `Result{B: bmk, E: pingErr}` to the
`washed` channel.  The deferred block waits for all of them (`wg.Wait()`),
then, since `wkerr` is never nil at that point, sends `Result{B: nil,
E: wkerr}` and closes `washed`.  So the sequence of values seen on
`washed` is: the washed bookmarks (in an order that is nondeterministic
among concurrent probes, modelled here in admission order), followed by
exactly one `Result{nil, wkerr}`.  A `Pinger` is modelled as a function
from URL to `(status, error)`, matching the `Pinger` interface. -/

/-- One value of type `Result` delivered on the `washed` channel:
`ok b e` is `Result{B: &b, E: e}` from a probe goroutine (`b` non-nil,
`e` the ping error), `fail e` is the terminal `Result{B: nil, E: wkerr}`. -/
inductive WashResult where
  | ok (b : Bookmark) (e : Option PingErr)
  | fail (e : WalkError)
  deriving DecidableEq, Repr

/-- The bookmarks the puller hands to probe goroutines: walker results up
to (excluding) the walker's first error. -/
def leadingOks : List WalkResult → List Bookmark
  | .ok b :: rest => b :: leadingOks rest
  | _ => []

/-- The error that ends the puller loop: the walker's first error.  A
`NetscapeWalker` always delivers one (at worst `io.EOF` past the end of
its results, which is also the `getD` default of `walkerNext`). -/
def firstFailErr : List WalkResult → WalkError
  | [] => .eof
  | .ok _ :: rest => firstFailErr rest
  | .fail e :: _ => e

/-- One probe goroutine body: `status, err := w.pinger.Ping(bmk.URL);
bmk.Status = status; w.washed <- &Result{B: bmk, E: err}`. -/
def washOne (pinger : String → PingStatus × Option PingErr) (b : Bookmark) :
    WashResult :=
  let r := pinger b.URL
  .ok { b with Status := r.1 } r.2

/-- The full sequence of values delivered on the `washed` channel for a
given walker output, before the channel closes. -/
def washerResults (walkRs : List WalkResult)
    (pinger : String → PingStatus × Option PingErr) : List WashResult :=
  (leadingOks walkRs).map (washOne pinger) ++ [.fail (firstFailErr walkRs)]

/-- The n-th call of `Washer.Next` (src/washer.go): the n-th value
received from `washed`; a closed channel yields `(nil, io.EOF)`, hence
the `fail eof` default. -/
def washerNext (results : List WashResult) (n : Nat) : WashResult :=
  results.getD n (.fail .eof)

/-- `Washer` from src/washer.go, reduced to the only constructor input the
claims observe; the channels have no static content. -/
structure Washer where
  cquota : Int
  deriving DecidableEq, Repr

/-- `NewWasher` from src/washer.go.  It performs no validation of its own:
`make(chan struct{}, cquota)` panics when `cquota` is negative (modelled
as `.error` with the runtime message) and otherwise the `Washer` value is
built as is — a quota of `0` constructs successfully. -/
def NewWasher (cquota : Int) : Except String Washer :=
  if cquota < 0 then .error "makechan: size out of range"
  else .ok { cquota := cquota }

/-- The guard in `main` (src/main.go): `if *cqFlg <= 0 { ...; os.Exit(1) }`
runs before anything is constructed, so the CLI only ever passes a
positive quota on to `StartWashTillDone`. -/
def mainAcceptsQuota (c : Int) : Bool := !(c ≤ 0)

/-- One output line of `StartWashTillDone` (src/washer.go):
`fmt.Fprintf(sb, "%s\t%s", r.B.Status, r.B.URL)` then, when the error is
non-nil, `fmt.Fprintf(sb, "\t%s", r.E)`. -/
def renderLine (b : Bookmark) (e : Option PingErr) : String :=
  let base := b.Status.render ++ "\t" ++ b.URL
  match e with
  | some pe => base ++ "\t" ++ pingErrText pe
  | none => base

/-- The print loop of `StartWashTillDone` (src/washer.go), fed by the
forwarding goroutine that stops at the first washer result whose error is
`io.EOF` (then `washed` closes and the loop exits cleanly).  Returns the
lines written to `out` and whether the loop panicked: a forwarded result
with a nil bookmark (`Result{B: nil, E: wkerr}` for a non-EOF walk error)
makes `r.B.Status` dereference a nil pointer. -/
def renderResults : List WashResult → List String × Bool
  | [] => ([], false)
  | .ok b e :: rest =>
    let next := renderResults rest
    (renderLine b e :: next.1, next.2)
  | .fail .eof :: _ => ([], false)
  | .fail _ :: _ => ([], true)

/-! ## Pinger lemmas -/

/-- The retry loop issues at most `fuel` requests. -/
theorem retryDo_le (doer : Nat → DoOutcome) :
    ∀ fuel i, (retryDo doer i fuel).2 ≤ i + fuel := by
  intro fuel
  induction fuel with
  | zero => intro i; simp [retryDo]
  | succ f ih =>
    intro i
    rw [retryDo]
    split
    · exact le_trans (ih (i + 1)) (by omega)
    · simp

/-- A retry loop with a positive attempt budget issues at least one
request. -/
theorem retryDo_pos (doer : Nat → DoOutcome) :
    ∀ fuel i, fuel ≠ 0 → i < (retryDo doer i fuel).2 := by
  intro fuel
  induction fuel with
  | zero => intro i h; exact absurd rfl h
  | succ f ih =>
    intro i _
    rw [retryDo]
    split
    · rename_i hcond
      have hf : f ≠ 0 := hcond.2.1
      exact lt_trans (by omega) (ih (i + 1) hf)
    · simp

/-- A failed attempt that is retryable, with budget remaining, moves the
loop to the next request. -/
theorem retryDo_step_retry (doer : Nat → DoOutcome) (i f : Nat)
    (h1 : attemptErr (doer i) ≠ none) (h2 : f ≠ 0)
    (h3 : errOrStatusRetryable (attemptErr (doer i)) = true) :
    retryDo doer i (f + 1) = retryDo doer (i + 1) f := by
  rw [retryDo]
  simp [h1, h2, h3]

/-- `ping` issues exactly the requests of its retry loop. -/
theorem ping_count (doer : Nat → DoOutcome) (method : String) (i : Nat) :
    (ping doer method i).2.2 = (retryDo doer i pingAttempts).2 := by
  unfold ping
  rcases h : retryDo doer i pingAttempts with ⟨ro, j⟩
  cases ro <;> simp

/-- `terminal` is false exactly when the status is neither Alive nor Dead
and the error is either the 405 escape hatch or still retryable. -/
theorem terminal_eq_false_iff (s : PingStatus) (e : Option PingErr) :
    terminal s e = false ↔
      (¬(s = .Alive ∨ s = .Dead) ∧
        (e = some (.statusNotAlive 405) ∨ errOrStatusRetryable e = true)) := by
  unfold terminal
  split
  · rename_i h
    simp [h]
  · rename_i h1
    split
    · rename_i h2
      simp [h1, h2]
    · rename_i h2
      simp [h1, h2]

/-- **C10**: for every URL from which an HTTP request cannot be
constructed, `Ping` returns `Dead` together with the construction error
after zero `Do` calls — no network request is issued by either strategy. -/
theorem C10_bad_url (doer : Nat → DoOutcome) :
    Ping false doer = (.Dead, some .badRequest, 0) := rfl

/-- **C4**: a first-attempt response whose status is in the `dead` set
makes `Ping` return `Dead` with the non-nil `statusNotAlive` error for
that code, whose message is the status text; only the HEAD strategy runs
and exactly one request is issued. -/
theorem C4_dead_set (c : Nat) (doer : Nat → DoOutcome)
    (hc : c ∈ dead) (h0 : doer 0 = .resp c) :
    Ping true doer = (.Dead, some (.statusNotAlive c), 1) ∧
      pingErrText (.statusNotAlive c) = statusText c := by
  fin_cases hc <;>
    simp [Ping, pingFn, ping, pingAttempts, retryDo, h0, attemptErr, stopOutcome,
      alive, errOrStatusRetryable, retryable, check, dead, terminal, pingErrText]

/-- Closed instance of the C4 theorem: status 409 on the first request. -/
theorem C4_dead_set_witness :
    Ping true (fun _ => .resp 409) = (.Dead, some (.statusNotAlive 409), 1) ∧
      pingErrText (.statusNotAlive 409) = statusText 409 :=
  C4_dead_set 409 (fun _ => .resp 409) (by decide) rfl

/-- The Doer answering `[500, 503, 200]` to the successive requests. -/
def doerC5 : Nat → DoOutcome := fun n => .resp ([500, 503, 200].getD n 200)

/-- **C5**: on the response sequence `[500, 503, 200]` the HEAD strategy
retries twice and `Ping` returns Alive with no error after exactly 3
requests; in general a strategy is configured with 3 attempts, a 100 ms
base delay and exponential backoff, never issues more than 3 requests,
and a (constant-outcome) attempt is retried precisely when
`errOrStatusRetryable` classifies its outcome retryable — a non-retryable
outcome stops the strategy after a single request. -/
theorem C5_retry_policy :
    Ping true doerC5 = (.Alive, none, 3) ∧
    pingAttempts = 3 ∧ pingDelayBaseMs = 100 ∧ pingDelayKind = .backOff ∧
    (∀ doer i, (retryDo doer i pingAttempts).2 ≤ i + pingAttempts) ∧
    (∀ o i, (retryDo (fun _ => o) i pingAttempts).2 =
      i + (if errOrStatusRetryable (attemptErr o) = true then 3 else 1)) := by
  refine ⟨by decide, rfl, rfl, rfl, fun doer i => retryDo_le doer pingAttempts i, ?_⟩
  intro o i
  cases h : errOrStatusRetryable (attemptErr o) with
  | false =>
    show (retryDo (fun _ => o) i 3).2 = _
    rw [retryDo]
    simp [h]
  | true =>
    have hne : attemptErr o ≠ none := by
      intro hn
      rw [hn] at h
      simp [errOrStatusRetryable] at h
    show (retryDo (fun _ => o) i 3).2 = _
    rw [show (3 : Nat) = 2 + 1 from rfl, retryDo_step_retry _ _ _ hne (by decide) h,
      show (2 : Nat) = 1 + 1 from rfl, retryDo_step_retry _ _ _ hne (by decide) h,
      retryDo]
    simp [h]

/-- The Doer answering 500 to the first three requests and 200 afterwards:
the HEAD strategy exhausts its 3 attempts on a retryable status. -/
def doerC1 : Nat → DoOutcome := fun n => .resp (if n < 3 then 500 else 200)

/-- **C1 counterexample**: the HEAD strategy ends with status Unknown and
error `statusNotAlive 500` — not 405 — after its 3 attempts, yet `Ping`
goes on to issue a 4th (GET) request and returns its Alive result, so
"proceeds to GET if and only if the HEAD outcome is 405" is false. -/
theorem C1_counterexample :
    (ping doerC1 "HEAD" 0).2.1 ≠ some (.statusNotAlive 405) ∧
    (ping doerC1 "HEAD" 0).1 = .Unknown ∧
    (ping doerC1 "HEAD" 0).2.2 = 3 ∧
    (Ping true doerC1).2.2 = 4 ∧
    (Ping true doerC1).1 = .Alive := by decide

/-- **C1 (amended)**: `Ping` attempts the HEAD strategy first and proceeds
to the GET strategy (which issues at least one further request) exactly
when the HEAD outcome is non-terminal: status neither Alive nor Dead, and
the error either `statusNotAlive 405` or still classified retryable (the
retry budget ran out on a retryable status or transport failure); for
every other HEAD outcome `Ping` returns the HEAD result without issuing a
GET request. -/
theorem C1_amended (doer : Nat → DoOutcome) :
    Ping true doer =
      (if ¬((ping doer "HEAD" 0).1 = .Alive ∨ (ping doer "HEAD" 0).1 = .Dead) ∧
          ((ping doer "HEAD" 0).2.1 = some (.statusNotAlive 405) ∨
            errOrStatusRetryable (ping doer "HEAD" 0).2.1 = true)
        then ping doer "GET" (ping doer "HEAD" 0).2.2
        else ping doer "HEAD" 0) ∧
    (ping doer "HEAD" 0).2.2 < (ping doer "GET" (ping doer "HEAD" 0).2.2).2.2 := by
  constructor
  · have hP : Ping true doer =
        if terminal (ping doer "HEAD" 0).1 (ping doer "HEAD" 0).2.1 = true
        then ping doer "HEAD" 0 else ping doer "GET" (ping doer "HEAD" 0).2.2 := rfl
    rw [hP,
      if_congr ((terminal_eq_false_iff (ping doer "HEAD" 0).1 (ping doer "HEAD" 0).2.1).symm)
        rfl rfl]
    rcases Bool.eq_false_or_eq_true
        (terminal (ping doer "HEAD" 0).1 (ping doer "HEAD" 0).2.1) with hb | hb
    · rw [if_pos hb, if_neg (by simp [hb])]
    · rw [if_neg (by simp [hb]), if_pos hb]
  · rw [ping_count doer "GET"]
    exact retryDo_pos doer pingAttempts (ping doer "HEAD" 0).2.2 (by decide)

/-! ## Walker lemmas -/

/-- The token loop splits along a list append. -/
theorem walkTokens_append (xs ys : List Token) (st : WalkState) :
    walkTokens (xs ++ ys) st =
      match walkTokens xs st with
      | (rs, none) => (rs, none)
      | (rs, some st') => (rs ++ (walkTokens ys st').1, (walkTokens ys st').2) := by
  induction xs generalizing st with
  | nil => simp [walkTokens]
  | cons t rest ih =>
    rcases h : walkStep st t with ⟨rs1, o⟩
    rw [List.cons_append, walkTokens, walkTokens, h]
    cases o with
    | none => rfl
    | some st1 =>
      dsimp only
      rw [ih st1]
      rcases h2 : walkTokens rest st1 with ⟨rs2, o2⟩
      cases o2 <;> simp

/-- A step that stops the walk emits exactly one `add_date` parse
failure. -/
theorem genBookmarkGo_error (attrs : List (String × String)) :
    ∀ u d e, genBookmarkGo attrs u d = .error e → ∃ v, e = .parseIntError v := by
  induction attrs with
  | nil => intro u d e h; cases h
  | cons a rest ih =>
    rcases a with ⟨k, v⟩
    intro u d e h
    rw [genBookmarkGo] at h
    split at h
    · exact ih v d e h
    · split at h
      · rcases hp : parseInt64 v with _ | sec <;> rw [hp] at h
        · cases h; exact ⟨v, rfl⟩
        · exact ih u (some sec) e h
      · exact ih u d e h

/-- Every `walkStep` either continues with only records emitted, or stops
with exactly one `parseIntError` result. -/
theorem walkStep_shape (st : WalkState) (t : Token) :
    ((walkStep st t).2.isSome ∧ ∀ r ∈ (walkStep st t).1, ∃ b, r = .ok b) ∨
    (∃ v, walkStep st t = ([.fail (.parseIntError v)], none)) := by
  rcases st with ⟨anchor, bmk⟩
  cases t with
  | startTag name attrs =>
    by_cases hc : name ≠ anchorTag ∨ attrs = []
    · left
      simp [walkStep, hc]
    · rcases hg : genBookmark attrs with e | b
      · obtain ⟨v, rfl⟩ := genBookmarkGo_error attrs "" none e hg
        right
        exact ⟨v, by simp [walkStep, hc, hg]⟩
      · left
        simp [walkStep, hc, hg]
  | endTag name =>
    rcases bmk with _ | b
    · left
      simp [walkStep]
    · by_cases hc : name ≠ anchorTag
      · left
        simp [walkStep, hc]
      · left
        refine ⟨by simp [walkStep, hc], ?_⟩
        intro r hr
        simp [walkStep, hc] at hr
        exact ⟨b, hr⟩
  | text data =>
    rcases bmk with _ | b
    · left
      simp [walkStep]
    · cases anchor <;> (left; simp [walkStep])
  | other =>
    left
    simp [walkStep]

/-- A step that continues the walk only emits records. -/
theorem walkStep_cont_ok (st : WalkState) (t : Token) (rs : List WalkResult)
    (st' : WalkState) (h : walkStep st t = (rs, some st')) :
    ∀ r ∈ rs, ∃ b, r = .ok b := by
  rcases walkStep_shape st t with ⟨_, hok⟩ | ⟨v, hv⟩
  · rw [h] at hok
    exact hok
  · rw [h, Prod.ext_iff] at hv
    have h2 : (some st' : Option WalkState) = none := hv.2
    cases h2

/-- A step that stops the walk emits exactly one `parseIntError`. -/
theorem walkStep_stop_shape (st : WalkState) (t : Token) (rs : List WalkResult)
    (h : walkStep st t = (rs, none)) :
    ∃ v, rs = [.fail (.parseIntError v)] := by
  rcases walkStep_shape st t with ⟨hs, _⟩ | ⟨v, hv⟩
  · rw [h] at hs
    cases hs
  · rw [h, Prod.ext_iff] at hv
    exact ⟨v, hv.1⟩

/-- A token loop that did not stop only emitted records. -/
theorem walkTokens_cont_ok (toks : List Token) :
    ∀ st rs st', walkTokens toks st = (rs, some st') → ∀ r ∈ rs, ∃ b, r = .ok b := by
  induction toks with
  | nil => intro st rs st' h; cases h; simp
  | cons t rest ih =>
    intro st rs st' h
    rw [walkTokens] at h
    rcases h1 : walkStep st t with ⟨rs1, o1⟩
    rw [h1] at h
    cases o1 with
    | none => cases h
    | some st1 =>
      dsimp only at h
      rcases h2 : walkTokens rest st1 with ⟨rs2, o2⟩
      rw [h2] at h
      cases o2 with
      | none => cases h
      | some st2 =>
        cases h
        intro r hr
        rcases List.mem_append.1 hr with hr1 | hr2
        · exact walkStep_cont_ok st t rs1 st1 h1 r hr1
        · exact ih st1 rs2 st' h2 r hr2

/-- A token loop that stopped emitted records followed by one
`parseIntError`. -/
theorem walkTokens_stop_shape (toks : List Token) :
    ∀ st rs, walkTokens toks st = (rs, none) →
      ∃ rs' v, rs = rs' ++ [.fail (.parseIntError v)] ∧ ∀ r ∈ rs', ∃ b, r = .ok b := by
  induction toks with
  | nil => intro st rs h; cases h
  | cons t rest ih =>
    intro st rs h
    rw [walkTokens] at h
    rcases h1 : walkStep st t with ⟨rs1, o1⟩
    rw [h1] at h
    cases o1 with
    | none =>
      cases h
      obtain ⟨v, rfl⟩ := walkStep_stop_shape st t rs h1
      exact ⟨[], v, rfl, by simp⟩
    | some st1 =>
      dsimp only at h
      rcases h2 : walkTokens rest st1 with ⟨rs2, o2⟩
      rw [h2] at h
      cases o2 with
      | some st2 => cases h
      | none =>
        cases h
        obtain ⟨rs2', v, rfl, hok2⟩ := ih st1 rs2 h2
        refine ⟨rs1 ++ rs2', v, by simp, ?_⟩
        intro r hr
        rcases List.mem_append.1 hr with hr1 | hr2
        · exact walkStep_cont_ok st t rs1 st1 h1 r hr1
        · exact hok2 r hr2


/-- Every walk is a list of records followed by exactly one error
result. -/
theorem walk_shape (toks : List Token) (endErr : WalkError) :
    ∃ rs e, walk toks endErr = rs ++ [.fail e] ∧ ∀ r ∈ rs, ∃ b, r = .ok b := by
  rw [walk]
  rcases h : walkTokens toks walkInit with ⟨rs, o⟩
  cases o with
  | none =>
    obtain ⟨rs', v, rfl, hok⟩ := walkTokens_stop_shape toks walkInit rs h
    exact ⟨rs', .parseIntError v, rfl, hok⟩
  | some st => exact ⟨rs, endErr, rfl, walkTokens_cont_ok toks walkInit rs st h⟩

/-- In a list whose default value appears in no proper prefix element,
`getD` keeps answering the default once it has answered it. -/
theorem getD_after_default {α : Type} (rs : List α) (x d : α)
    (h : ∀ r ∈ rs, r ≠ d) :
    ∀ n m, n ≤ m → (rs ++ [x]).getD n d = d → (rs ++ [x]).getD m d = d := by
  intro n m hnm hn
  by_cases hm : m < rs.length + 1
  · have hnlen : ¬ n < rs.length := by
      intro hlt
      rw [List.getD_append _ _ _ _ hlt, List.getD_eq_getElem _ _ hlt] at hn
      exact h _ (List.getElem_mem hlt) hn
    have hn' : n = rs.length := by omega
    have hm' : m = rs.length := by omega
    rw [hm', ← hn']
    exact hn
  · exact List.getD_eq_default _ _ (by simp; omega)

/-- The URL that `genBookmark`'s attribute loop extracts: the value of the
last `href` attribute, `""` when none is present. -/
def extractedURL (attrs : List (String × String)) : String :=
  attrs.foldl (fun url a => if a.1 = "href" then a.2 else url) ""

/-- Whether an anchor start tag that the walker will turn into a record
carries a non-empty extracted `href`. -/
def anchorHrefNonempty : Token → Bool
  | .startTag name attrs =>
    if name = anchorTag ∧ attrs ≠ [] then extractedURL attrs ≠ "" else true
  | _ => true

/-- The URL of a bookmark built by the attribute loop is its `href` fold. -/
theorem genBookmarkGo_url (attrs : List (String × String)) :
    ∀ u d b, genBookmarkGo attrs u d = .ok b →
      b.URL = attrs.foldl (fun url a => if a.1 = "href" then a.2 else url) u := by
  induction attrs with
  | nil =>
    intro u d b h
    cases h
    rfl
  | cons a rest ih =>
    rcases a with ⟨k, v⟩
    intro u d b h
    rw [genBookmarkGo] at h
    rw [List.foldl_cons]
    by_cases h1 : k = "href"
    · rw [if_pos h1] at h
      simpa [h1] using ih v d b h
    · rw [if_neg h1] at h
      by_cases h2 : k = "add_date"
      · rw [if_pos h2] at h
        rcases hp : parseInt64 v with _ | sec <;> rw [hp] at h
        · cases h
        · simpa [h1] using ih u (some sec) b h
      · rw [if_neg h2] at h
        simpa [h1] using ih u d b h

/-- Walk invariant: when every anchor start tag in the remaining tokens has
a non-empty extracted href and the pending bookmark (if any) has a
non-empty URL, every record the loop emits has a non-empty URL, and so
does any pending bookmark of the final state. -/
theorem walkTokens_url_invariant (toks : List Token) :
    ∀ st rs o, toks.all anchorHrefNonempty = true →
      (∀ b, st.bmk = some b → b.URL ≠ "") →
      walkTokens toks st = (rs, o) →
      (∀ r ∈ rs, ∀ b, r = .ok b → b.URL ≠ "") ∧
      (∀ st', o = some st' → ∀ b, st'.bmk = some b → b.URL ≠ "") := by
  induction toks with
  | nil =>
    intro st rs o _ hst h
    cases h
    exact ⟨by simp, fun st' ho => by cases ho; exact hst⟩
  | cons t rest ih =>
    intro st rs o hall hst h
    rw [List.all_cons, Bool.and_eq_true] at hall
    have hstep : (∀ r ∈ (walkStep st t).1, ∀ b, r = .ok b → b.URL ≠ "") ∧
        (∀ st', (walkStep st t).2 = some st' → ∀ b, st'.bmk = some b → b.URL ≠ "") := by
      clear h ih
      rcases st with ⟨anchor, bmk⟩
      cases t with
      | startTag name attrs =>
        by_cases hc : name ≠ anchorTag ∨ attrs = []
        · constructor
          · simp [walkStep, hc]
          · intro st' ho
            rw [walkStep] at ho
            rw [if_pos hc] at ho
            cases ho
            exact hst
        · have hc' : name = anchorTag ∧ attrs ≠ [] := by
            push_neg at hc
            exact hc
          have hhref : extractedURL attrs ≠ "" := by
            have := hall.1
            rw [anchorHrefNonempty, if_pos hc'] at this
            simpa using this
          rcases hg : genBookmark attrs with e | b
          · constructor
            · intro r hr b hb
              rw [walkStep, if_neg hc, hg] at hr
              simp at hr
              rw [hr] at hb
              cases hb
            · intro st' ho
              rw [walkStep, if_neg hc, hg] at ho
              cases ho
          · have hurl : b.URL ≠ "" := by
              have := genBookmarkGo_url attrs "" none b hg
              rw [this]
              exact hhref
            constructor
            · simp [walkStep, hc, hg]
            · intro st' ho
              rw [walkStep, if_neg hc, hg] at ho
              cases ho
              intro b' hb'
              cases hb'
              exact hurl
      | endTag name =>
        rcases bmk with _ | b
        · refine ⟨by simp [walkStep], fun st' ho => ?_⟩
          dsimp only [walkStep] at ho
          cases ho
          exact hst
        · by_cases hc : name ≠ anchorTag
          · refine ⟨by simp [walkStep, hc], fun st' ho => ?_⟩
            dsimp only [walkStep] at ho
            rw [if_pos hc] at ho
            cases ho
            exact hst
          · constructor
            · intro r hr b' hb'
              dsimp only [walkStep] at hr
              rw [if_neg hc] at hr
              simp at hr
              rw [hr] at hb'
              cases hb'
              exact hst b rfl
            · intro st' ho
              dsimp only [walkStep] at ho
              rw [if_neg hc] at ho
              cases ho
              intro b' hb'
              cases hb'
      | text data =>
        rcases bmk with _ | b
        · refine ⟨by simp [walkStep], fun st' ho => ?_⟩
          dsimp only [walkStep] at ho
          cases ho
          exact hst
        · cases anchor with
          | false =>
            refine ⟨by simp [walkStep], fun st' ho => ?_⟩
            dsimp only [walkStep] at ho
            rw [if_neg (by simp)] at ho
            cases ho
            exact hst
          | true =>
            refine ⟨by simp [walkStep], fun st' ho => ?_⟩
            dsimp only [walkStep] at ho
            rw [if_pos rfl] at ho
            cases ho
            intro b' hb'
            cases hb'
            exact hst b rfl
      | other =>
        refine ⟨by simp [walkStep], fun st' ho => ?_⟩
        dsimp only [walkStep] at ho
        cases ho
        exact hst
    rw [walkTokens] at h
    rcases h1 : walkStep st t with ⟨rs1, o1⟩
    rw [h1] at h
    rw [h1] at hstep
    cases o1 with
    | none =>
      cases h
      exact ⟨hstep.1, fun st' ho => by cases ho⟩
    | some st1 =>
      dsimp only at h
      rcases h2 : walkTokens rest st1 with ⟨rs2, o2⟩
      rw [h2] at h
      cases h
      have hrest := ih st1 rs2 o2 hall.2 (hstep.2 st1 rfl) h2
      constructor
      · intro r hr
        rcases List.mem_append.1 hr with hr1 | hr2
        · exact hstep.1 r hr1
        · exact hrest.1 r hr2
      · exact hrest.2

/-- **C2 counterexample**: on the document `<a name="x"></a>` — an anchor
start tag with a non-empty attribute list but no `href` — the walker's
first `Next` yields a record (nil error, not EOF) whose URL is empty, so
"every yielded record has a non-empty URL" is false. -/
theorem C2_counterexample :
    walkerNext (walk [.startTag anchorTag [("name", "x")], .endTag anchorTag] .eof) 0
        = .ok { URL := "", Title := "", AddDate := none, Status := .Unknown } ∧
    ({ URL := "", Title := "", AddDate := none, Status := .Unknown } : Bookmark).URL = "" := by
  decide

/-- **C2 (amended)**: every Bookmark yielded by the walker has URL equal to
the last `href` attribute value of its anchor start tag (empty when no
`href` is present); consequently, whenever every anchor start tag with
attributes in the document carries a non-empty extracted `href`, every
yielded record has a non-empty URL. -/
theorem C2_amended (toks : List Token) (endErr : WalkError)
    (h : toks.all anchorHrefNonempty = true) :
    ∀ r ∈ walk toks endErr, ∀ b, r = .ok b → b.URL ≠ "" := by
  intro r hr b hb
  rw [walk] at hr
  rcases hw : walkTokens toks walkInit with ⟨rs, o⟩
  rw [hw] at hr
  have hinv := walkTokens_url_invariant toks walkInit rs o h (by intro b' hb'; cases hb') hw
  cases o with
  | none => exact hinv.1 r hr b hb
  | some st =>
    rcases List.mem_append.1 hr with hr1 | hr2
    · exact hinv.1 r hr1 b hb
    · simp at hr2
      rw [hr2] at hb
      cases hb

/-- Closed instance of the C2 theorem: the record walked out of
`<a href="u">t</a>` has the non-empty URL `"u"`. -/
theorem C2_amended_witness :
    ({ URL := "u", Title := "t", AddDate := none, Status := .Unknown } : Bookmark).URL ≠ "" :=
  C2_amended [.startTag anchorTag [("href", "u")], .text "t", .endTag anchorTag] .eof
    (by decide) (.ok { URL := "u", Title := "t", AddDate := none, Status := .Unknown })
    (by decide) { URL := "u", Title := "t", AddDate := none, Status := .Unknown } rfl

/-- **C6**: when a well-formed prefix is followed by an anchor start tag
whose attributes make `genBookmark` fail on a non-numeric `add_date`, the
walk yields exactly the prefix's records (all of them records, unchanged)
followed by one `parseIntError` — which is not `io.EOF` — and every later
`Next` call yields `io.EOF`; the tokens after the malformed anchor are
never reached. -/
theorem C6_bad_add_date (pre post : List Token) (attrs : List (String × String))
    (endErr : WalkError) (rs : List WalkResult) (st : WalkState) (v : String)
    (hpre : walkTokens pre walkInit = (rs, some st))
    (hattrs : attrs ≠ [])
    (hbad : genBookmark attrs = .error (.parseIntError v)) :
    walk (pre ++ Token.startTag anchorTag attrs :: post) endErr
        = rs ++ [.fail (.parseIntError v)] ∧
    (∀ r ∈ rs, ∃ b, r = .ok b) ∧
    (WalkError.parseIntError v ≠ .eof) ∧
    (∀ n, walkerNext (walk (pre ++ Token.startTag anchorTag attrs :: post) endErr)
        (rs.length + 1 + n) = .fail .eof) := by
  have hstep : walkStep st (.startTag anchorTag attrs)
      = ([.fail (.parseIntError v)], none) := by
    rw [walkStep, if_neg (by simp [hattrs]), hbad]
  have hmain : walkTokens (pre ++ Token.startTag anchorTag attrs :: post) walkInit
      = (rs ++ [.fail (.parseIntError v)], none) := by
    rw [walkTokens_append, hpre]
    dsimp only
    rw [walkTokens, hstep]
  have hwalk : walk (pre ++ Token.startTag anchorTag attrs :: post) endErr
      = rs ++ [.fail (.parseIntError v)] := by
    rw [walk, hmain]
  refine ⟨hwalk, walkTokens_cont_ok pre walkInit rs st hpre, by simp, ?_⟩
  intro n
  rw [walkerNext, hwalk]
  exact List.getD_eq_default _ _ (by simp only [List.length_append, List.length_singleton]; omega)

/-- Closed instance of the C6 theorem: one good anchor, then an anchor
with `add_date="xyz"`. -/
theorem C6_bad_add_date_witness :
    walk ([.startTag anchorTag [("href", "u")], .text "t", .endTag anchorTag] ++
        Token.startTag anchorTag [("href", "u2"), ("add_date", "xyz")] :: []) .eof
      = [.ok { URL := "u", Title := "t", AddDate := none, Status := .Unknown }] ++
        [.fail (.parseIntError "xyz")] :=
  (C6_bad_add_date [.startTag anchorTag [("href", "u")], .text "t", .endTag anchorTag] []
    [("href", "u2"), ("add_date", "xyz")] .eof
    [.ok { URL := "u", Title := "t", AddDate := none, Status := .Unknown }]
    { anchor := false, bmk := none } "xyz" (by decide) (by decide) rfl).1

/-- **C7**: exhaustion is idempotent for the walker and the washer — once
a `Next` call has answered `io.EOF`, every later `Next` call answers
`io.EOF` again, for every input document, walker output and pinger. -/
theorem C7_eof_idempotent :
    (∀ toks endErr n m, n ≤ m → walkerNext (walk toks endErr) n = .fail .eof →
      walkerNext (walk toks endErr) m = .fail .eof) ∧
    (∀ walkRs pinger n m, n ≤ m →
      washerNext (washerResults walkRs pinger) n = .fail .eof →
      washerNext (washerResults walkRs pinger) m = .fail .eof) := by
  constructor
  · intro toks endErr n m hnm hn
    obtain ⟨rs, e, hw, hok⟩ := walk_shape toks endErr
    rw [walkerNext, hw] at hn ⊢
    refine getD_after_default rs (.fail e) (.fail .eof) ?_ n m hnm hn
    intro r hr
    obtain ⟨b, rfl⟩ := hok r hr
    simp
  · intro walkRs pinger n m hnm hn
    rw [washerNext, washerResults] at hn ⊢
    refine getD_after_default _ _ _ ?_ n m hnm hn
    intro r hr
    simp at hr
    obtain ⟨b, _, rfl⟩ := hr
    simp [washOne]

/-- Closed instance of the C7 theorem: an empty document and an empty
walker output, pulled past exhaustion. -/
theorem C7_eof_idempotent_witness :
    walkerNext (walk [] .eof) 5 = .fail .eof ∧
    washerNext (washerResults [] (fun _ => (.Unknown, none))) 3 = .fail .eof :=
  ⟨C7_eof_idempotent.1 [] .eof 0 5 (by omega) (by decide),
   C7_eof_idempotent.2 [] (fun _ => (.Unknown, none)) 0 3 (by omega) (by decide)⟩

/-- **C8 counterexample**: for the anchor `<a href="u">Hello World</a>`
whose text arrives as the two tokens `"Hello "` and `"World"`, the yielded
record's Title is `"World"`, not the full text content `"Hello World"` —
each text token overwrites the title. -/
theorem C8_counterexample :
    walkerNext (walk [.startTag anchorTag [("href", "u")], .text "Hello ", .text "World",
        .endTag anchorTag] .eof) 0
      = .ok { URL := "u", Title := "World", AddDate := none, Status := .Unknown } ∧
    ("World" : String) ≠ "Hello " ++ "World" := by
  decide

/-- **C8 (amended)**: inside an anchor each text token overwrites the
pending record's Title, so the yielded Title equals the content of the
last text token seen before the closing tag; when the anchor's text
arrives as a single token this is the anchor's full text content. -/
theorem C8_amended (u t1 t2 : String) :
    walk [.startTag anchorTag [("href", u)], .text t1, .text t2, .endTag anchorTag] .eof
        = [.ok { URL := u, Title := t2, AddDate := none, Status := .Unknown },
            .fail .eof] ∧
    walk [.startTag anchorTag [("href", u)], .text t1, .endTag anchorTag] .eof
        = [.ok { URL := u, Title := t1, AddDate := none, Status := .Unknown },
            .fail .eof] := by
  constructor <;>
    simp [walk, walkTokens, walkStep, walkInit, genBookmark, genBookmarkGo]

/-- The C3 document: one well-formed anchor, then an anchor whose
`add_date` value `"oops"` is non-numeric — a fatal walk error. -/
def toksC3 : List Token :=
  [.startTag anchorTag [("href", "https://u1"), ("add_date", "100")], .text "T1",
    .endTag anchorTag, .startTag anchorTag [("href", "https://u2"), ("add_date", "oops")]]

/-- A pinger that reports every URL alive with no error. -/
def pingerC3 : String → PingStatus × Option PingErr := fun _ => (.Alive, none)

/-- **C3**: on a document whose walk ends in a single fatal (non-EOF) walk
error, the run controller emits the lines for the already-washed records
— here `alive\thttps://u1` — and then, on the terminal `Result{B: nil, E:
err}`, dereferences the nil bookmark (`r.B.Status`) and panics instead of
writing the `<status>\t<url>\t<error>` line the spec promises; the same
document truncated before the malformed anchor (EOF termination) ends
cleanly with the same record line and no panic. -/
theorem C3_walk_error_panics :
    renderResults (washerResults (walk toksC3 .eof) pingerC3)
        = (["alive\thttps://u1"], true) ∧
    renderResults (washerResults (walk (toksC3.take 3) .eof) pingerC3)
        = (["alive\thttps://u1"], false) := by
  constructor <;> rfl

/-- **C9 counterexample**: `NewWasher` with the non-positive quota `0`
succeeds and hands back a coordinator — construction is not rejected. -/
theorem C9_counterexample : NewWasher 0 = .ok { cquota := 0 } := rfl

/-- **C9 (amended)**: the core constructor performs no positivity check:
`NewWasher` fails (a `make(chan)` runtime panic) exactly for negative
quotas and succeeds for every quota ≥ 0, including 0; the positivity
requirement is enforced by the CLI guard in `main`, which accepts a quota
exactly when it is positive and exits before constructing the Washer
otherwise. -/
theorem C9_amended (c : Int) :
    (NewWasher c = .error "makechan: size out of range" ↔ c < 0) ∧
    ((∃ w, NewWasher c = .ok w) ↔ 0 ≤ c) ∧
    (mainAcceptsQuota c = true ↔ 0 < c) := by
  refine ⟨?_, ?_, ?_⟩
  · rw [NewWasher]
    by_cases h : c < 0
    · rw [if_pos h]
      simp [h]
    · rw [if_neg h]
      simp [h]
  · rw [NewWasher]
    by_cases h : c < 0
    · rw [if_pos h]
      constructor
      · rintro ⟨w, hw⟩
        cases hw
      · intro hc
        omega
    · rw [if_neg h]
      exact ⟨fun _ => by omega, fun _ => ⟨{ cquota := c }, rfl⟩⟩
  · rw [mainAcceptsQuota]
    constructor
    · intro h
      simp at h
      omega
    · intro h
      simp
      omega

/-- Closed instance of the amended C1 theorem at the retry-exhausting
doer. -/
theorem C1_amended_witness :
    (ping doerC1 "HEAD" 0).2.2 < (ping doerC1 "GET" (ping doerC1 "HEAD" 0).2.2).2.2 :=
  (C1_amended doerC1).2

/-- Closed instance of the amended C9 theorem at the CLI default quota. -/
theorem C9_amended_witness : mainAcceptsQuota 16 = true :=
  (C9_amended 16).2.2.mpr (by decide)

/-- Closed instance of the C10 theorem at a constant doer. -/
theorem C10_bad_url_witness :
    Ping false (fun _ => .resp 200) = (.Dead, some .badRequest, 0) :=
  C10_bad_url (fun _ => .resp 200)

end Marwash
